import Mathlib

/-!
Verification of the unicase crate's core: case-insensitive equality, ordering
and hashing for text.

Strings are modelled as lists of Unicode code points (`Nat`), mirroring Rust's
`str::chars()` view; the UTF-8 byte view `str::bytes()` is recovered by
encoding each code point with the crate's own `char_to_utf8` (proved below to
be the standard UTF-8 encoding).  A hasher is modelled by its observable
input: the list of `Hasher::write` calls, each carrying the byte slice passed
to it.

The generated case-folding table `src/unicode/map.rs` is not part of the
sources; `lookup` below is modelled from the specification (see its doc
comment).  All statements about the folding algorithms that do not depend on
the concrete table are proved for an arbitrary table `L : Nat → Fold`.
-/

namespace Unicase

set_option maxRecDepth 8000

/-- A Rust `str` viewed as its sequence of code points (`chars()`). -/
abbrev Str := List Nat

/-- Iterator::flat_map over a list, written out so that later inductions are
elementary. -/
def flatMap (f : α → List β) : List α → List β
  | [] => []
  | a :: l => f a ++ flatMap f l

/-- u8::is_ascii_uppercase / char::is_ascii_uppercase. -/
def isAsciiUppercase (c : Nat) : Bool := 0x41 ≤ c && c ≤ 0x5A

/-- u8::to_ascii_lowercase and char::to_ascii_lowercase: uppercase ASCII
letters gain 0x20, everything else is unchanged. -/
def toAsciiLowercase (c : Nat) : Nat := if isAsciiUppercase c then c + 0x20 else c

/-- char_to_utf8 from src/unicode/mod.rs.  The bit operations are kept
literally; the `as u8` casts are the `% 256` reductions; the caller-supplied
`dst` buffer together with the returned count is embedded as the emitted byte
list `buf[..len]`. -/
def char_to_utf8 (code : Nat) : List Nat :=
  if code ≤ 0x7F then
    [code % 256]
  else if code ≤ 0x7FF then
    [((code >>> 6 &&& 0x1F) % 256) ||| 0xC0,
     ((code &&& 0x3F) % 256) ||| 0x80]
  else if code ≤ 0xFFFF then
    [((code >>> 12 &&& 0x0F) % 256) ||| 0xE0,
     ((code >>> 6 &&& 0x3F) % 256) ||| 0x80,
     ((code &&& 0x3F) % 256) ||| 0x80]
  else
    [((code >>> 18 &&& 0x07) % 256) ||| 0xF0,
     ((code >>> 12 &&& 0x3F) % 256) ||| 0x80,
     ((code >>> 6 &&& 0x3F) % 256) ||| 0x80,
     ((code &&& 0x3F) % 256) ||| 0x80]

/-- str::bytes(): the UTF-8 byte view of the payload. -/
def strBytes (s : Str) : List Nat := flatMap char_to_utf8 s

/-- The Fold enum from src/unicode/mod.rs: the 0–3 code points one source
character folds to. -/
inductive Fold where
  | Zero : Fold
  | One : Nat → Fold
  | Two : Nat → Nat → Fold
  | Three : Nat → Nat → Nat → Fold
deriving DecidableEq, Repr

/-- Iterator::next for Fold, exactly as in src/unicode/mod.rs: note that the
Three arm returns `three` and stores `Two(one, two)`. -/
def Fold.next : Fold → Option (Nat × Fold)
  | .Zero => none
  | .One one => some (one, .Zero)
  | .Two one two => some (one, .One two)
  | .Three one two three => some (three, .Two one two)

/-- Draining a Fold through repeated `next` calls, with fuel.  By `size_hint`
a Fold yields at most 3 items, so fuel 4 never truncates. -/
def Fold.iterAux : Nat → Fold → List Nat
  | 0, _ => []
  | n + 1, f =>
    match f.next with
    | none => []
    | some (c, f') => c :: Fold.iterAux n f'

/-- The full sequence of code points a Fold yields when consumed as an
iterator. -/
def Fold.iter (f : Fold) : List Nat := Fold.iterAux 4 f

/-- The result code points of a Fold in declared order (first field, then
second, then third): the order the fold table lists them in. -/
def Fold.declared : Fold → List Nat
  | .Zero => []
  | .One a => [a]
  | .Two a b => [a, b]
  | .Three a b c => [a, b, c]

/-- Modelled from the spec: the generated Unicode case-folding table
(`super::map::lookup`, src/unicode/map.rs) is not under src/.  §4.3 fixes its
value on ASCII (uppercase letters gain 0x20, all other ASCII code points fold
to themselves); §4.1 and §8 give the sample multi-character foldings sharp s
U+00DF → s s, ligature fl U+FB02 → f l, ligature ffi U+FB03 → f f i, and the
final sigma U+03C2 → σ.  Every other code point is folded to itself. -/
def lookup (c : Nat) : Fold :=
  if isAsciiUppercase c then .One (c + 0x20)
  else if c = 0xDF then .Two 0x73 0x73
  else if c = 0x3C2 then .One 0x3C3
  else if c = 0xFB02 then .Two 0x66 0x6C
  else if c = 0xFB03 then .Three 0x66 0x66 0x69
  else .One c

/-- chars().flat_map(lookup): the flattened folded stream of a string, in the
order the Fold iterator yields it. -/
def foldedStream (L : Nat → Fold) (s : Str) : List Nat :=
  flatMap (fun c => (L c).iter) s

/-- The folded stream as the specification words it: every character mapped
through fold and its result code points concatenated left to right in their
declared order. -/
def foldedStreamSpec (L : Nat → Fold) (s : Str) : List Nat :=
  flatMap (fun c => (L c).declared) s

/-- PartialEq for Unicode (default, non-wasm build), src/unicode/mod.rs lines
22–29: zip the two folded streams and require all paired elements equal. -/
def Unicode.eq (L : Nat → Fold) (a b : Str) : Bool :=
  ((foldedStream L a).zip (foldedStream L b)).all fun p => p.1 == p.2

/-- Iterator::cmp: lexicographic comparison, a strict prefix ordering first. -/
def listCmp : List Nat → List Nat → Ordering
  | [], [] => .eq
  | [], _ :: _ => .lt
  | _ :: _, [] => .gt
  | a :: as', b :: bs' =>
    match compare a b with
    | .eq => listCmp as' bs'
    | o => o

/-- Ord for Unicode, src/unicode/mod.rs lines 31–39: Iterator::cmp of the two
folded streams. -/
def Unicode.cmp (L : Nat → Fold) (a b : Str) : Ordering :=
  listCmp (foldedStream L a) (foldedStream L b)

/-- Hash for Unicode, src/unicode/mod.rs lines 41–50: one `write` call per
folded code point, carrying its UTF-8 bytes `buf[..len]`. -/
def Unicode.hashWrites (L : Nat → Fold) (s : Str) : List (List Nat) :=
  (foldedStream L s).map char_to_utf8

/-- u8::eq_ignore_ascii_case. -/
def byteEqIgnoreAsciiCase (a b : Nat) : Bool :=
  toAsciiLowercase a == toAsciiLowercase b

/-- str::eq_ignore_ascii_case: equal byte length, and bytes pairwise equal
ignoring ASCII case. -/
def eqIgnoreAsciiCase (a b : Str) : Bool :=
  (strBytes a).length == (strBytes b).length &&
    ((strBytes a).zip (strBytes b)).all fun p => byteEqIgnoreAsciiCase p.1 p.2

/-- PartialEq for UniCase, src/lib.rs lines 83–88. -/
def UniCase.eq (a b : Str) : Bool := eqIgnoreAsciiCase a b

/-- PartialEq<S> for UniCase<S> (wrapper against bare payload), src/lib.rs
lines 91–96. -/
def UniCase.eqPayload (a b : Str) : Bool := eqIgnoreAsciiCase a b

/-- Ord for UniCase, src/lib.rs lines 59–66: Iterator::cmp of the
ASCII-lowercased character streams. -/
def UniCase.cmp (a b : Str) : Ordering :=
  listCmp (a.map toAsciiLowercase) (b.map toAsciiLowercase)

/-- Hash for UniCase, src/lib.rs lines 107–114: one `write` call per byte of
the payload, each byte ASCII-lowercased. -/
def UniCase.hashWrites (s : Str) : List (List Nat) :=
  (strBytes s).map fun b => [toAsciiLowercase b]

/-- PartialEq for UniCaseNoOpt<str>, src/noopt.rs lines 24–30: delegate to the
Unicode comparator. -/
def UniCaseNoOpt.eq (L : Nat → Fold) (a b : Str) : Bool := Unicode.eq L a b

/-- Hash for UniCaseNoOpt, src/noopt.rs lines 33–39: delegate to the Unicode
hasher. -/
def UniCaseNoOpt.hashWrites (L : Nat → Fold) (s : Str) : List (List Nat) :=
  Unicode.hashWrites L s

/-- Borrow<UniCaseNoOpt<str>> for UniCase<S>, src/noopt.rs lines 41–45:
`from_ref` reinterprets the payload's text; the text itself is unchanged. -/
def UniCase.borrowNoOpt (s : Str) : Str := s

/-- A HashSet keyed by owned `UniCase` values finds a stored entry under a
borrowed `UniCaseNoOpt` query exactly when the stored key's own hash stream
(written at insertion) matches the query view's hash stream and the borrowed
view of the stored key is view-equal to the query. -/
def hashsetFinds (stored query : Str) : Prop :=
  UniCase.hashWrites stored = UniCaseNoOpt.hashWrites lookup query ∧
    UniCaseNoOpt.eq lookup (UniCase.borrowNoOpt stored) query = true

/-- UniCase<S> is a tuple struct holding exactly one payload. -/
structure UniCaseW (P : Type) where
  payload : P
deriving DecidableEq, Repr

/-- FromStr for UniCase<S>, src/lib.rs lines 100–105: `s.parse().map(UniCase)`,
for an arbitrary payload parser. -/
def UniCase.fromStr {E P : Type} (parse : Str → Except E P) (s : Str) :
    Except E (UniCaseW P) :=
  (parse s).map UniCaseW.mk

/-- UniCaseVisitor::visit_str, src/serde.rs lines 202–209: run the payload's
FromStr through UniCase::from_str and map any error to the custom message. -/
def UniCaseVisitor.visitStr {E P : Type} (parse : Str → Except E P) (s : Str) :
    Except String (UniCaseW P) :=
  match UniCase.fromStr parse s with
  | .ok v => .ok v
  | .error _ => .error "FromStr conversion failed"

/-- Serialize for UniCase<S>, src/serde.rs lines 168–175:
`serializer.serialize_str(self.as_ref())` emits the payload text itself. -/
def serializeUniCase (w : UniCaseW Str) : Str := w.payload

/-- FromStr for String: never fails and returns the text itself. -/
def parseOwned (s : Str) : Except Unit Str := .ok s

/-- Deserialize for UniCase<String> (owned payload kind). -/
def deserializeOwned (s : Str) : Except String (UniCaseW Str) :=
  UniCaseVisitor.visitStr parseOwned s

/-- Modelled from the spec: `UniCase::unicode` (src/lib.rs of the full crate,
not under src/) wraps a payload in the Unicode-folding flavor, whose equality
is the Unicode comparator. -/
def UniCase.unicodeNew (s : Str) : UniCaseW Str := UniCaseW.mk s

/-- deserialize_borrowed_unicase, src/serde.rs lines 252–275 (used for both
the borrowed and the copy-on-write payload kinds): `visit_borrowed_str`
returns `Ok(UniCase::unicode(s.into()))`; `From<&str>` for `&str` and for
`Cow<str>` keeps the text unchanged. -/
def deserializeBorrowed (s : Str) : Except String (UniCaseW Str) :=
  .ok (UniCase.unicodeNew s)

/-- Equality as the specification words it: the two flattened folded streams
(declared fold order, concatenated left to right) are equal element-by-element
and in length. -/
def unicodeEqSpec (L : Nat → Fold) (a b : Str) : Bool :=
  foldedStreamSpec L a == foldedStreamSpec L b

/-- The standard UTF-8 encoding of a code point, written arithmetically as the
specification describes it (leading byte carrying the tag and the high bits,
continuation bytes carrying six bits each). -/
def utf8EncodeSpec (c : Nat) : List Nat :=
  if c ≤ 0x7F then [c]
  else if c ≤ 0x7FF then
    [0xC0 + c / 64, 0x80 + c % 64]
  else if c ≤ 0xFFFF then
    [0xE0 + c / 4096, 0x80 + c / 64 % 64, 0x80 + c % 64]
  else
    [0xF0 + c / 262144, 0x80 + c / 4096 % 64, 0x80 + c / 64 % 64, 0x80 + c % 64]

/-- One unit of the standard UTF-8 decoder: checks the leading-byte tag, the
continuation bytes, overlong forms, the surrogate range and the 0x10FFFF
ceiling, and reassembles the code point. -/
def utf8DecodeOne : List Nat → Option Nat
  | [b0] =>
    if b0 ≤ 0x7F then some b0 else none
  | [b0, b1] =>
    if 0xC2 ≤ b0 ∧ b0 ≤ 0xDF ∧ 0x80 ≤ b1 ∧ b1 ≤ 0xBF then
      some ((b0 - 0xC0) * 64 + (b1 - 0x80))
    else none
  | [b0, b1, b2] =>
    if 0xE0 ≤ b0 ∧ b0 ≤ 0xEF ∧ 0x80 ≤ b1 ∧ b1 ≤ 0xBF ∧ 0x80 ≤ b2 ∧ b2 ≤ 0xBF ∧
        0x800 ≤ (b0 - 0xE0) * 4096 + (b1 - 0x80) * 64 + (b2 - 0x80) ∧
        ((b0 - 0xE0) * 4096 + (b1 - 0x80) * 64 + (b2 - 0x80) < 0xD800 ∨
          0xDFFF < (b0 - 0xE0) * 4096 + (b1 - 0x80) * 64 + (b2 - 0x80)) then
      some ((b0 - 0xE0) * 4096 + (b1 - 0x80) * 64 + (b2 - 0x80))
    else none
  | [b0, b1, b2, b3] =>
    if 0xF0 ≤ b0 ∧ b0 ≤ 0xF4 ∧ 0x80 ≤ b1 ∧ b1 ≤ 0xBF ∧ 0x80 ≤ b2 ∧ b2 ≤ 0xBF ∧
        0x80 ≤ b3 ∧ b3 ≤ 0xBF ∧
        0x10000 ≤ (b0 - 0xF0) * 262144 + (b1 - 0x80) * 4096 + (b2 - 0x80) * 64 + (b3 - 0x80) ∧
        (b0 - 0xF0) * 262144 + (b1 - 0x80) * 4096 + (b2 - 0x80) * 64 + (b3 - 0x80) ≤ 0x10FFFF then
      some ((b0 - 0xF0) * 262144 + (b1 - 0x80) * 4096 + (b2 - 0x80) * 64 + (b3 - 0x80))
    else none
  | _ => none

/-- Byte counts of the standard encoding, as the claim states them. -/
def utf8Len (c : Nat) : Nat :=
  if c ≤ 0x7F then 1 else if c ≤ 0x7FF then 2 else if c ≤ 0xFFFF then 3 else 4

theorem lor_tag_cont : ∀ x < 64, x ||| 0x80 = 0x80 + x := by decide

theorem lor_tag_two : ∀ x < 32, x ||| 0xC0 = 0xC0 + x := by decide

theorem lor_tag_three : ∀ x < 16, x ||| 0xE0 = 0xE0 + x := by decide

theorem lor_tag_four : ∀ x < 8, x ||| 0xF0 = 0xF0 + x := by decide

theorem and_63 (x : Nat) : x &&& 63 = x % 64 := by
  have h := Nat.and_pow_two_sub_one_eq_mod x 6
  norm_num at h
  exact h

theorem and_31 (x : Nat) : x &&& 31 = x % 32 := by
  have h := Nat.and_pow_two_sub_one_eq_mod x 5
  norm_num at h
  exact h

theorem and_15 (x : Nat) : x &&& 15 = x % 16 := by
  have h := Nat.and_pow_two_sub_one_eq_mod x 4
  norm_num at h
  exact h

theorem and_7 (x : Nat) : x &&& 7 = x % 8 := by
  have h := Nat.and_pow_two_sub_one_eq_mod x 3
  norm_num at h
  exact h

theorem shiftRight_6 (x : Nat) : x >>> 6 = x / 64 := by
  rw [Nat.shiftRight_eq_div_pow]

theorem shiftRight_12 (x : Nat) : x >>> 12 = x / 4096 := by
  rw [Nat.shiftRight_eq_div_pow]

theorem shiftRight_18 (x : Nat) : x >>> 18 = x / 262144 := by
  rw [Nat.shiftRight_eq_div_pow]

/-- The crate's bitwise emitter agrees with the arithmetic form of the
standard encoding on the whole code-point range. -/
theorem char_to_utf8_eq_spec (c : Nat) (h : c ≤ 0x10FFFF) :
    char_to_utf8 c = utf8EncodeSpec c := by
  unfold char_to_utf8 utf8EncodeSpec
  by_cases h1 : c ≤ 0x7F
  · rw [if_pos h1, if_pos h1]
    have : c % 256 = c := Nat.mod_eq_of_lt (by omega)
    rw [this]
  · rw [if_neg h1, if_neg h1]
    by_cases h2 : c ≤ 0x7FF
    · rw [if_pos h2, if_pos h2, shiftRight_6, and_31, and_63,
        lor_tag_two _ (by omega), lor_tag_cont _ (by omega)]
      simp only [List.cons.injEq, and_true]
      omega
    · rw [if_neg h2, if_neg h2]
      by_cases h3 : c ≤ 0xFFFF
      · rw [if_pos h3, if_pos h3, shiftRight_12, shiftRight_6, and_15, and_63, and_63,
          lor_tag_three _ (by omega), lor_tag_cont _ (by omega), lor_tag_cont _ (by omega)]
        simp only [List.cons.injEq, and_true]
        omega
      · rw [if_neg h3, if_neg h3, shiftRight_18, shiftRight_12, shiftRight_6,
          and_7, and_63, and_63, and_63,
          lor_tag_four _ (by omega), lor_tag_cont _ (by omega), lor_tag_cont _ (by omega),
          lor_tag_cont _ (by omega)]
        simp only [List.cons.injEq, and_true]
        omega

theorem utf8DecodeOne_one (b0 : Nat) :
    utf8DecodeOne [b0] = if b0 ≤ 0x7F then some b0 else none := rfl

theorem utf8DecodeOne_two (b0 b1 : Nat) :
    utf8DecodeOne [b0, b1] =
      if 0xC2 ≤ b0 ∧ b0 ≤ 0xDF ∧ 0x80 ≤ b1 ∧ b1 ≤ 0xBF then
        some ((b0 - 0xC0) * 64 + (b1 - 0x80))
      else none := rfl

theorem utf8DecodeOne_three (b0 b1 b2 : Nat) :
    utf8DecodeOne [b0, b1, b2] =
      if 0xE0 ≤ b0 ∧ b0 ≤ 0xEF ∧ 0x80 ≤ b1 ∧ b1 ≤ 0xBF ∧ 0x80 ≤ b2 ∧ b2 ≤ 0xBF ∧
          0x800 ≤ (b0 - 0xE0) * 4096 + (b1 - 0x80) * 64 + (b2 - 0x80) ∧
          ((b0 - 0xE0) * 4096 + (b1 - 0x80) * 64 + (b2 - 0x80) < 0xD800 ∨
            0xDFFF < (b0 - 0xE0) * 4096 + (b1 - 0x80) * 64 + (b2 - 0x80)) then
        some ((b0 - 0xE0) * 4096 + (b1 - 0x80) * 64 + (b2 - 0x80))
      else none := rfl

theorem utf8DecodeOne_four (b0 b1 b2 b3 : Nat) :
    utf8DecodeOne [b0, b1, b2, b3] =
      if 0xF0 ≤ b0 ∧ b0 ≤ 0xF4 ∧ 0x80 ≤ b1 ∧ b1 ≤ 0xBF ∧ 0x80 ≤ b2 ∧ b2 ≤ 0xBF ∧
          0x80 ≤ b3 ∧ b3 ≤ 0xBF ∧
          0x10000 ≤ (b0 - 0xF0) * 262144 + (b1 - 0x80) * 4096 + (b2 - 0x80) * 64 + (b3 - 0x80) ∧
          (b0 - 0xF0) * 262144 + (b1 - 0x80) * 4096 + (b2 - 0x80) * 64 + (b3 - 0x80) ≤ 0x10FFFF then
        some ((b0 - 0xF0) * 262144 + (b1 - 0x80) * 4096 + (b2 - 0x80) * 64 + (b3 - 0x80))
      else none := rfl

/-- Decoding the arithmetic standard encoding restores the code point, for
every Unicode scalar value. -/
theorem utf8DecodeOne_encodeSpec (c : Nat) (h : c ≤ 0x10FFFF)
    (hs : c < 0xD800 ∨ 0xDFFF < c) :
    utf8DecodeOne (utf8EncodeSpec c) = some c := by
  unfold utf8EncodeSpec
  by_cases h1 : c ≤ 0x7F
  · rw [if_pos h1, utf8DecodeOne_one, if_pos (by omega)]
  · rw [if_neg h1]
    by_cases h2 : c ≤ 0x7FF
    · rw [if_pos h2, utf8DecodeOne_two, if_pos (by omega)]
      congr 1
      omega
    · rw [if_neg h2]
      by_cases h3 : c ≤ 0xFFFF
      · rw [if_pos h3, utf8DecodeOne_three, if_pos (by omega)]
        congr 1
        omega
      · rw [if_neg h3, utf8DecodeOne_four, if_pos (by omega)]
        congr 1
        omega

/-- Lengths of the standard encoding. -/
theorem utf8EncodeSpec_length (c : Nat) : (utf8EncodeSpec c).length = utf8Len c := by
  unfold utf8EncodeSpec utf8Len
  by_cases h1 : c ≤ 0x7F
  · rw [if_pos h1, if_pos h1]
    rfl
  · rw [if_neg h1, if_neg h1]
    by_cases h2 : c ≤ 0x7FF
    · rw [if_pos h2, if_pos h2]
      rfl
    · rw [if_neg h2, if_neg h2]
      by_cases h3 : c ≤ 0xFFFF
      · rw [if_pos h3, if_pos h3]
        rfl
      · rw [if_neg h3, if_neg h3]
        rfl

theorem char_to_utf8_of_ascii : ∀ c < 128, char_to_utf8 c = [c] := by decide

theorem toAsciiLowercase_lt_128 : ∀ c < 128, toAsciiLowercase c < 128 := by decide

theorem lookup_iter_of_ascii : ∀ c < 128, (lookup c).iter = [toAsciiLowercase c] := by decide

/-- On an ASCII payload the byte view coincides with the code-point view. -/
theorem strBytes_of_ascii (s : Str) (h : ∀ c ∈ s, c < 128) : strBytes s = s := by
  induction s with
  | nil => rfl
  | cons a t ih =>
    show char_to_utf8 a ++ strBytes t = a :: t
    rw [char_to_utf8_of_ascii a (h a (List.mem_cons_self a t)),
      ih fun c hc => h c (List.mem_cons_of_mem a hc)]
    rfl

/-- On an ASCII payload the modelled fold table lowercases character by
character. -/
theorem foldedStream_lookup_of_ascii (s : Str) (h : ∀ c ∈ s, c < 128) :
    foldedStream lookup s = s.map toAsciiLowercase := by
  induction s with
  | nil => rfl
  | cons a t ih =>
    show (lookup a).iter ++ foldedStream lookup t = toAsciiLowercase a :: t.map toAsciiLowercase
    rw [lookup_iter_of_ascii a (h a (List.mem_cons_self a t)),
      ih fun c hc => h c (List.mem_cons_of_mem a hc)]
    rfl

/-- Zipping a list with itself passes every reflexive Boolean test. -/
theorem zip_self_all (f : Nat → Nat → Bool) (hf : ∀ a, f a a = true) (l : List Nat) :
    ((l.zip l).all fun p => f p.1 p.2) = true := by
  induction l with
  | nil => rfl
  | cons a t ih =>
    rw [List.zip_cons_cons, List.all_cons, hf a, ih]
    rfl

/-- The Unicode comparator's equality is reflexive for any fold table. -/
theorem unicode_eq_self (L : Nat → Fold) (s : Str) : Unicode.eq L s s = true :=
  zip_self_all _ (fun a => by simp) _

/-- The ASCII wrapper's equality is reflexive. -/
theorem unicase_eq_self (s : Str) : UniCase.eq s s = true := by
  unfold UniCase.eq eqIgnoreAsciiCase
  rw [zip_self_all _ (fun a => by simp [byteEqIgnoreAsciiCase]) _]
  simp

/-- Claim C1.  The Unicode-folding wrapper's equality is claimed to hold iff
the two flattened folded streams agree element-by-element and in length, a
strict prefix never being equal.  The code (zip + all) truncates to the
shorter stream: folding "a" gives a strict prefix of folding "ab", the
specification-side stream equality rejects the pair, yet `Unicode::eq`
accepts it; the same slip makes the declared `Eq` contract fail (the relation
is not transitive). -/
theorem unicode_eq_strict_prefix_bug :
    Unicode.eq lookup [0x61] [0x61, 0x62] = true ∧
    unicodeEqSpec lookup [0x61] [0x61, 0x62] = false ∧
    foldedStreamSpec lookup [0x61] ≠ foldedStreamSpec lookup [0x61, 0x62] ∧
    Unicode.eq lookup [0x61, 0x62] [0x61] = true ∧
    Unicode.eq lookup [0x61] [0x61, 0x63] = true ∧
    Unicode.eq lookup [0x61, 0x62] [0x61, 0x63] = false := by decide

/-- Claim C2.  The ASCII fast path and the Unicode path are claimed to agree
on every pair of ASCII-only strings.  On the ASCII pair "a" / "ab" the fast
path's `eq_ignore_ascii_case` (which compares lengths) answers false while
`Unicode::eq` (zip + all, truncating) answers true. -/
theorem ascii_unicode_path_mismatch_bug :
    UniCase.eq [0x61] [0x61, 0x62] = false ∧
    Unicode.eq lookup [0x61] [0x61, 0x62] = true ∧
    ([0x61, 0x62].all fun c => c ≤ 0x7F) = true := by decide

/-- Claim C3.  Equal values are claimed to feed identical byte sequences to
the hash accumulator.  For the Unicode wrapper, "a" and "ab" compare equal
under the truncating `Unicode::eq` yet hash different write streams ([0x61]
versus [0x61], [0x62]), so `eq(a,b) ⇒ hash(a) == hash(b)` fails. -/
theorem unicode_eq_hash_contract_bug :
    Unicode.eq lookup [0x61] [0x61, 0x62] = true ∧
    Unicode.hashWrites lookup [0x61] ≠ Unicode.hashWrites lookup [0x61, 0x62] := by decide

/-- Claim C4.  `cmp` is claimed to be lexicographic on the folded streams and
consistent with equality (`cmp = Equal` iff `eq`).  `Unicode::cmp` orders the
strict prefix "a" before "ab" (Less), but the truncating `Unicode::eq` calls
the same pair equal, so the consistency direction `eq ⇒ cmp = Equal` fails. -/
theorem unicode_cmp_eq_inconsistent_bug :
    Unicode.cmp lookup [0x61] [0x61, 0x62] = Ordering.lt ∧
    Unicode.eq lookup [0x61] [0x61, 0x62] = true ∧
    ¬(Unicode.cmp lookup [0x61] [0x61, 0x62] = Ordering.eq ↔
        Unicode.eq lookup [0x61] [0x61, 0x62] = true) := by decide

/-- Claim C5.  A Fold Sequence is claimed to yield its result code points in
order: first, then second, then third.  The `Three` arm of `Fold::next`
returns the third code point and stores `Two(one, two)`, so a three-point
fold is drained third-first-second: `Three(1,2,3)` iterates as [3, 1, 2], and
the ligature ffi entry of the fold table iterates i-f-f instead of f-f-i. -/
theorem fold_three_iter_order_bug :
    Fold.iter (Fold.Three 1 2 3) = [3, 1, 2] ∧
    Fold.iter (Fold.Three 1 2 3) ≠ Fold.declared (Fold.Three 1 2 3) ∧
    Fold.iter (Fold.Two 1 2) = Fold.declared (Fold.Two 1 2) ∧
    (lookup 0xFB03).iter = [0x69, 0x66, 0x66] := by decide

/-- Claim C6, counterexample.  The borrowed view is claimed to reproduce the
owning wrapper's hash byte stream bit-for-bit for every payload.  For the
payload sharp s (U+00DF) the owning `UniCase` hash writes the raw UTF-8 bytes
0xC3, 0x9F (ASCII-lowercased, hence unchanged) while the view hashes the
folded form s s, writing 0x73, 0x73. -/
theorem noopt_hash_stream_counterexample :
    UniCase.hashWrites [0xDF] ≠ UniCaseNoOpt.hashWrites lookup [0xDF] ∧
    UniCase.hashWrites [0xDF] = [[0xC3], [0x9F]] ∧
    UniCaseNoOpt.hashWrites lookup [0xDF] = [[0x73], [0x73]] := by decide

/-- Claim C6, amended.  For every ASCII payload the borrowed view's hash
writes are bit-for-bit the owning wrapper's, and inserting an owned wrapper
built from "ascii" into a hash set then querying through a borrowed view
built from "Ascii" finds the entry (the stored key's own hash stream matches
the query view's, and the borrowed view of the stored key is view-equal to
the query). -/
theorem noopt_hash_ascii_agrees (s : Str) (h : ∀ c ∈ s, c ≤ 0x7F) :
    UniCase.hashWrites s = UniCaseNoOpt.hashWrites lookup s ∧
    hashsetFinds [0x61, 0x73, 0x63, 0x69, 0x69] [0x41, 0x73, 0x63, 0x69, 0x69] := by
  have h' : ∀ c ∈ s, c < 128 := fun c hc => by have := h c hc; omega
  constructor
  · unfold UniCase.hashWrites UniCaseNoOpt.hashWrites Unicode.hashWrites
    rw [strBytes_of_ascii s h', foldedStream_lookup_of_ascii s h', List.map_map]
    refine List.map_congr_left fun c hc => ?_
    have hlt := toAsciiLowercase_lt_128 c (h' c hc)
    show [toAsciiLowercase c] = char_to_utf8 (toAsciiLowercase c)
    rw [char_to_utf8_of_ascii _ hlt]
  · exact ⟨by decide, by decide⟩

theorem noopt_hash_ascii_agrees_witness :
    UniCase.hashWrites [0x41, 0x73, 0x63, 0x69, 0x69] =
      UniCaseNoOpt.hashWrites lookup [0x41, 0x73, 0x63, 0x69, 0x69] ∧
    hashsetFinds [0x61, 0x73, 0x63, 0x69, 0x69] [0x41, 0x73, 0x63, 0x69, 0x69] :=
  noopt_hash_ascii_agrees [0x41, 0x73, 0x63, 0x69, 0x69] (by decide)

/-- Claim C7.  char_to_utf8 emits exactly the standard UTF-8 byte sequence of
every Unicode scalar value into the 4-byte buffer, with byte count 1 for code
points up to 0x7F, 2 up to 0x7FF, 3 up to 0xFFFF and 4 otherwise, and the
standard UTF-8 decoder restores the original code point from the written
bytes. -/
theorem char_to_utf8_standard (c : Nat) (h : c ≤ 0x10FFFF)
    (hs : c < 0xD800 ∨ 0xDFFF < c) :
    char_to_utf8 c = utf8EncodeSpec c ∧
    (char_to_utf8 c).length = utf8Len c ∧
    utf8DecodeOne (char_to_utf8 c) = some c := by
  have he := char_to_utf8_eq_spec c h
  refine ⟨he, ?_, ?_⟩
  · rw [he, utf8EncodeSpec_length]
  · rw [he]
    exact utf8DecodeOne_encodeSpec c h hs

theorem char_to_utf8_standard_witness :
    char_to_utf8 0x10348 = utf8EncodeSpec 0x10348 ∧
    (char_to_utf8 0x10348).length = utf8Len 0x10348 ∧
    utf8DecodeOne (char_to_utf8 0x10348) = some 0x10348 :=
  char_to_utf8_standard 0x10348 (by decide) (by decide)

/-- Claim C8.  Serializing a wrapper emits exactly its plain unfolded text
(for "A" the serialized text is "A", not the folded "a"), and deserializing
that text yields a wrapper case-insensitively equal to the original: through
the owned payload's FromStr (never failing and returning the text itself, as
for String), and through the borrowed deserializer used for the borrowed and
copy-on-write payload kinds, which wraps the borrowed text in the
Unicode-folding flavor. -/
theorem serde_roundtrip (w : UniCaseW Str) :
    serializeUniCase w = w.payload ∧
    serializeUniCase (UniCaseW.mk [0x41]) ≠ foldedStreamSpec lookup [0x41] ∧
    deserializeOwned (serializeUniCase w) = Except.ok (UniCaseW.mk w.payload) ∧
    UniCase.eq (UniCaseW.mk w.payload).payload w.payload = true ∧
    deserializeBorrowed (serializeUniCase w) = Except.ok (UniCase.unicodeNew w.payload) ∧
    Unicode.eq lookup (UniCase.unicodeNew w.payload).payload w.payload = true :=
  ⟨rfl, by decide, rfl, unicase_eq_self _, rfl, unicode_eq_self _ _⟩

/-- Claim C9.  Construction from text is the only fallible operation:
UniCase::from_str returns Ok wrapping the payload parser's result exactly
when the parse succeeds and propagates the parse error unchanged otherwise,
and the serde string visitor likewise succeeds exactly when the parse does,
turning a parse failure into the conversion error it reports to the caller.
Equality, ordering and hashing are total functions of their inputs by
construction (they are Bool-, Ordering- and write-list-valued). -/
theorem from_str_error_propagation {E P : Type} (parse : Str → Except E P) (s : Str) :
    (∀ v : P, UniCase.fromStr parse s = Except.ok (UniCaseW.mk v) ↔ parse s = Except.ok v) ∧
    (∀ e : E, UniCase.fromStr parse s = Except.error e ↔ parse s = Except.error e) ∧
    (∀ v : P, UniCaseVisitor.visitStr parse s = Except.ok (UniCaseW.mk v) ↔
      parse s = Except.ok v) ∧
    ((∃ e, parse s = Except.error e) ↔
      UniCaseVisitor.visitStr parse s = Except.error "FromStr conversion failed") := by
  unfold UniCaseVisitor.visitStr UniCase.fromStr
  cases hp : parse s with
  | ok a => simp [Except.map]
  | error e => simp [Except.map]

/-- Claim C10.  Comparing a wrapper against a bare payload
(`PartialEq<S> for UniCase<S>`) gives exactly the same answer as comparing it
against the wrapped payload (`PartialEq for UniCase<S>`): both run
eq_ignore_ascii_case on the two texts, so wrapping or unwrapping the
right-hand operand never changes the result. -/
theorem unicase_eq_payload_agrees (s t : Str) :
    UniCase.eqPayload s t = UniCase.eq s t ∧
    (UniCase.eqPayload s t = true ↔ UniCase.eq s t = true) :=
  ⟨rfl, Iff.rfl⟩

end Unicase
